import Mathlib

/-!
Verification of the tailcall excerpt: query-complexity validation rule,
request-template rendering, batching deduplication, blueprint extension
operator, JIT executor dispatch, config reader path lookup, OpenAPI
schema-type name reduction, and the build-hasher.

Rust `Valid<A, E>` accumulates a list of errors; it is embedded as
`Except (List E) A` with `Valid.fail e = .error [e]` (one error) and
`Valid.succeed a = .ok a`.
-/

def Valid (α ε : Type) : Type := Except (List ε) α

def Valid.succeed {α ε : Type} (a : α) : Valid α ε := Except.ok a

def Valid.fail {α ε : Type} (e : ε) : Valid α ε := Except.error [e]

def Valid.is_succeed {α ε : Type} : Valid α ε → Bool
  | Except.ok _ => true
  | Except.error _ => false

def Valid.bind {α β ε : Type} : Valid α ε → (α → Valid β ε) → Valid β ε
  | Except.ok a, f => f a
  | Except.error e, _ => Except.error e

def Valid.from_option {α ε : Type} : Option α → ε → Valid α ε
  | some a, _ => Except.ok a
  | none, e => Except.error [e]

/-!
Query-complexity rule (src/core/jit/rules/query_complexity.rs).

A JIT plan field node: `jit::Field<Nested, ConstValue>` carries a name and
its nested children; `field.iter_only(|_| true)` enumerates exactly the
node's children, and `plan.as_nested()` is the list of top-level fields.
Only that child structure is relevant to the complexity rule, so the node
is embedded as a name together with the list of children.
-/

inductive JitField where
  | mk (name : String) (children : List JitField)

def JitField.children : JitField → List JitField
  | .mk _ cs => cs

namespace QueryComplexity

mutual

def complexity_helper : JitField → Nat
  | .mk _ cs => 1 + complexityList cs

def complexityList : List JitField → Nat
  | [] => 0
  | c :: cs => complexity_helper c + complexityList cs

end

/-- The rule is constructed with a budget (`QueryComplexity(usize)`);
`validate` sums the helper over the plan's top-level nodes and fails
when the total exceeds the budget. -/
def validate (budget : Nat) (plan : List JitField) : Valid Unit String :=
  let complexity := (plan.map complexity_helper).sum
  if complexity > budget then
    Valid.fail "Query Complexity validation failed."
  else
    Valid.succeed ()

def totalComplexity (plan : List JitField) : Nat :=
  (plan.map complexity_helper).sum

end QueryComplexity

/-- Plan for the query selecting posts with id, userId, title. -/
def planPosts : List JitField :=
  [JitField.mk "posts" [JitField.mk "id" [], JitField.mk "userId" [], JitField.mk "title" []]]

/-- Plan for the nested query selecting posts with id, title and user with id, name. -/
def planPostsUser : List JitField :=
  [JitField.mk "posts"
    [JitField.mk "id" [], JitField.mk "title" [],
     JitField.mk "user" [JitField.mk "id" [], JitField.mk "name" []]]]

theorem QueryComplexity.complexityList_eq_sum (cs : List JitField) :
    QueryComplexity.complexityList cs = (cs.map QueryComplexity.complexity_helper).sum := by
  induction cs with
  | nil => rfl
  | cons c cs ih => simp [QueryComplexity.complexityList, ih]

/-- C1: the complexity of a field node is 1 plus the sum of its children's
complexities; the total is the sum over top-level nodes; `validate` succeeds
iff the total does not exceed the budget; the plan for
`{ posts { id userId title } }` has complexity 4 (budget 4 passes, budget 2
fails) and the plan for `{ posts { id title user { id name } } }` has
complexity 6 (budget 6 passes, budget 5 fails). -/
theorem queryComplexity_additive_and_budget :
    (∀ (n : String) (cs : List JitField),
        QueryComplexity.complexity_helper (.mk n cs)
          = 1 + (cs.map QueryComplexity.complexity_helper).sum)
    ∧ (∀ (budget : Nat) (plan : List JitField),
        QueryComplexity.validate budget plan = Valid.succeed ()
          ↔ QueryComplexity.totalComplexity plan ≤ budget)
    ∧ QueryComplexity.totalComplexity planPosts = 4
    ∧ QueryComplexity.validate 4 planPosts = Valid.succeed ()
    ∧ QueryComplexity.validate 2 planPosts
        = Valid.fail "Query Complexity validation failed."
    ∧ QueryComplexity.totalComplexity planPostsUser = 6
    ∧ QueryComplexity.validate 6 planPostsUser = Valid.succeed ()
    ∧ QueryComplexity.validate 5 planPostsUser
        = Valid.fail "Query Complexity validation failed." := by
  refine ⟨?_, ?_, ?_, ?_, ?_, ?_, ?_, ?_⟩
  · intro n cs
    simp [QueryComplexity.complexity_helper, QueryComplexity.complexityList_eq_sum]
  · intro budget plan
    simp only [QueryComplexity.validate, QueryComplexity.totalComplexity]
    split
    · constructor
      · intro h; exact absurd h (by simp [Valid.fail, Valid.succeed])
      · omega
    · constructor
      · omega
      · intro _; rfl
  · rfl
  · rfl
  · rfl
  · rfl
  · rfl
  · rfl

/-!
Request Template engine (C2, C8).

Modelled from the spec: the `RequestTemplate` / mustache engine itself is
not among the provided sources (only its benchmark driver is), so the
segment model, the parser and the renderer below follow the spec: a
template is an ordered sequence of literal and dotted-path expression
segments; parsing fails on an empty path or an unrecognized source
keyword (`args`, `vars`, `headers`, `env`); rendering resolves each
expression against a path-lookup context, a missing key rendering as the
empty string while surrounding literals are still emitted.
-/

inductive Segment where
  | literal (s : String)
  | expression (path : List String)
deriving DecidableEq

def templateSources : List String := ["args", "vars", "headers", "env"]

def splitPathAux : List Char → List Char → List String
  | [], acc => [String.mk acc]
  | c :: rest, acc =>
    if c = '.' then String.mk acc :: splitPathAux rest []
    else splitPathAux rest (acc ++ [c])

def checkExpr (cs : List Char) : Except String Segment :=
  match splitPathAux cs [] with
  | [] => Except.error "template expression has an empty path"
  | head :: tail =>
    if head ∈ templateSources then Except.ok (Segment.expression (head :: tail))
    else Except.error ("unknown template source: " ++ head)

def lbraceChar : Char := Char.ofNat 123

def rbraceChar : Char := Char.ofNat 125

def flushLit (acc : List Char) : List Segment :=
  if acc.isEmpty then [] else [Segment.literal (String.mk acc)]

mutual

def parseLit : List Char → List Char → Except String (List Segment)
  | [], acc => Except.ok (flushLit acc)
  | [c], acc => Except.ok (flushLit (acc ++ [c]))
  | c1 :: c2 :: rest, acc =>
    if c1 = lbraceChar ∧ c2 = lbraceChar then
      match parseExpr rest [] with
      | Except.ok segs => Except.ok (flushLit acc ++ segs)
      | Except.error e => Except.error e
    else
      parseLit (c2 :: rest) (acc ++ [c1])

def parseExpr : List Char → List Char → Except String (List Segment)
  | [], _ => Except.error "unterminated template expression"
  | [_], _ => Except.error "unterminated template expression"
  | c1 :: c2 :: rest, acc =>
    if c1 = rbraceChar ∧ c2 = rbraceChar then
      match checkExpr acc with
      | Except.ok seg =>
        match parseLit rest [] with
        | Except.ok segs => Except.ok (seg :: segs)
        | Except.error e => Except.error e
      | Except.error e => Except.error e
    else
      parseExpr (c2 :: rest) (acc ++ [c1])

end

def parseTemplate (s : String) : Except String (List Segment) :=
  parseLit s.toList []

/-- A rendering context is the path-based string lookup capability
(`PathString`) the engine requires of any execution-time context. -/
def TemplateCtx : Type := List String → Option String

def renderSegment (ctx : TemplateCtx) : Segment → String
  | Segment.literal s => s
  | Segment.expression path => (ctx path).getD ""

def render (tmpl : List Segment) (ctx : TemplateCtx) : String :=
  String.join (tmpl.map (renderSegment ctx))

/-- The benchmarked URL template
`http://localhost:3000/\x7b\x7bargs.b\x7d\x7d?a=...` written with escaped
braces. -/
def urlTemplate : String :=
  "http://localhost:3000/\x7b\x7bargs.b\x7d\x7d?a=\x7b\x7bargs.a\x7d\x7d&b=\x7b\x7bargs.b\x7d\x7d&c=\x7b\x7bargs.c\x7d\x7d"

/-- Segments of `urlTemplate` after parsing. -/
def urlSegments : List Segment :=
  [Segment.literal "http://localhost:3000/", Segment.expression ["args", "b"],
   Segment.literal "?a=", Segment.expression ["args", "a"],
   Segment.literal "&b=", Segment.expression ["args", "b"],
   Segment.literal "&c=", Segment.expression ["args", "c"]]

/-- The context holding only args.b = "foo". -/
def ctxArgsB : TemplateCtx :=
  fun path => if path = ["args", "b"] then some "foo" else none

set_option maxRecDepth 10000 in
/-- C2: rendering is total and degrades gracefully on missing keys: an
expression around literals renders as the looked-up value, or as the
empty string when the key is absent, with the surrounding literals still
emitted (`render` is a total function into `String`, so no error can be
raised); concretely the benchmarked URL template parses into its
literal/expression segments and renders against the context
holding only args.b = "foo" to `http://localhost:3000/foo?a=&b=foo&c=`. -/
theorem template_render_total_and_url :
    (∀ (ctx : TemplateCtx) (pre post : String) (path : List String),
        render [Segment.literal pre, Segment.expression path, Segment.literal post] ctx
          = pre ++ (ctx path).getD "" ++ post)
    ∧ parseTemplate urlTemplate = Except.ok urlSegments
    ∧ render urlSegments ctxArgsB = "http://localhost:3000/foo?a=&b=foo&c=" := by
  refine ⟨?_, by rfl, by rfl⟩
  intro ctx pre post path
  simp [render, renderSegment, String.join]

/-- C8: rendering a template built purely of literal segments returns the
joined literal string unchanged, independent of the context's contents;
concretely the benchmarked literal URL parses to a single literal segment
and renders to itself under every context. -/
theorem literal_template_roundtrip :
    (∀ (ctx : TemplateCtx) (lits : List String),
        render (lits.map Segment.literal) ctx = String.join lits)
    ∧ (∀ (ctx ctx2 : TemplateCtx) (lits : List String),
        render (lits.map Segment.literal) ctx = render (lits.map Segment.literal) ctx2)
    ∧ parseTemplate "http://localhost:3000/foo?a=bar&b=foo&c=baz"
        = Except.ok [Segment.literal "http://localhost:3000/foo?a=bar&b=foo&c=baz"]
    ∧ (∀ ctx : TemplateCtx,
        render [Segment.literal "http://localhost:3000/foo?a=bar&b=foo&c=baz"] ctx
          = "http://localhost:3000/foo?a=bar&b=foo&c=baz") := by
  have hmap : ∀ (ctx : TemplateCtx) (lits : List String),
      render (lits.map Segment.literal) ctx = String.join lits := by
    intro ctx lits
    have hcomp : (renderSegment ctx ∘ Segment.literal) = fun s => s := rfl
    simp only [render, List.map_map, hcomp]
    simp
  refine ⟨hmap, ?_, by rfl, ?_⟩
  · intro ctx ctx2 lits
    rw [hmap, hmap]
  · intro ctx
    rfl

/-!
Batching / deduplication of a concurrent wave (C3).

Modelled from the spec: the executor's batching machinery is not among
the provided sources. A resolver call is identified by its endpoint
(operator) together with its concretely rendered arguments; within one
scheduling wave the executor coalesces structurally equal calls, makes
one upstream call per distinct call value, and fans the result out to
every requester.
-/

structure ResolverCall where
  endpoint : String
  args : List (String × String)
deriving DecidableEq

/-- Upstream calls actually issued for one wave: structural duplicates
are coalesced. -/
def dedupWave (wave : List ResolverCall) : List ResolverCall := wave.dedup

/-- Each coalesced call is executed exactly once, keyed by the call. -/
def upstreamResults {V : Type} (execUpstream : ResolverCall → V)
    (wave : List ResolverCall) : List (ResolverCall × V) :=
  (dedupWave wave).map (fun c => (c, execUpstream c))

def findResult {V : Type} : List (ResolverCall × V) → ResolverCall → Option V
  | [], _ => none
  | (k, v) :: rest, c => if k = c then some v else findResult rest c

/-- The response delivered to each requesting node of the wave, looked up
from the single executed result of its (deduplicated) call. -/
def fanOut {V : Type} (execUpstream : ResolverCall → V)
    (wave : List ResolverCall) : List (Option V) :=
  wave.map (fun c => findResult (upstreamResults execUpstream wave) c)

theorem findResult_map_self {V : Type} (execUpstream : ResolverCall → V)
    (l : List ResolverCall) (c : ResolverCall) (h : c ∈ l) :
    findResult (l.map (fun x => (x, execUpstream x))) c = some (execUpstream c) := by
  induction l with
  | nil => exact absurd h (List.not_mem_nil c)
  | cons a l ih =>
    rw [List.map_cons]
    show (if a = c then some (execUpstream a) else
      findResult (l.map fun x => (x, execUpstream x)) c) = some (execUpstream c)
    by_cases hac : a = c
    · rw [if_pos hac, hac]
    · rw [if_neg hac]
      rcases List.mem_cons.mp h with h1 | h2
      · exact absurd h1.symm hac
      · exact ih h2

/-- C3: within one wave, structurally equal resolver calls are coalesced:
the upstream-call list contains the duplicated call exactly once, and
every requester that issued that call receives the result of the single
upstream execution. -/
theorem batching_idempotent_single_upstream {V : Type}
    (execUpstream : ResolverCall → V) (wave : List ResolverCall)
    (c : ResolverCall) (hmem : c ∈ wave) :
    (dedupWave wave).count c = 1
    ∧ ∀ i : Nat, wave[i]? = some c →
        (fanOut execUpstream wave)[i]? = some (some (execUpstream c)) := by
  constructor
  · rw [dedupWave, List.count_dedup, if_pos hmem]
  · intro i hi
    rw [fanOut, List.getElem?_map, hi]
    show some (findResult (upstreamResults execUpstream wave) c) = some (some (execUpstream c))
    rw [upstreamResults, findResult_map_self]
    exact List.mem_dedup.mpr hmem

def callUser1 : ResolverCall := ⟨"http://svc/users", [("id", "1")]⟩

def callUser2 : ResolverCall := ⟨"http://svc/users", [("id", "2")]⟩

def waveExample : List ResolverCall := [callUser1, callUser2, callUser1]

theorem batching_idempotent_single_upstream_witness :
    callUser1 ∈ waveExample
    ∧ ((dedupWave waveExample).count callUser1 = 1
       ∧ ∀ i : Nat, waveExample[i]? = some callUser1 →
          (fanOut (fun c => c.args.length) waveExample)[i]?
            = some (some ((fun c : ResolverCall => c.args.length) callUser1))) :=
  ⟨by decide,
   batching_idempotent_single_upstream (fun c => c.args.length) waveExample callUser1 (by decide)⟩

/-!
Blueprint extension operator (src/core/blueprint/operators/extension.rs).

`IR::IO(IO::Rust { rust })` is embedded as `IR.io (IOKind.rust rust)`.
`config::Extension<serde_json::Value>` carries an opaque payload, embedded
as a string. `ConfigModule` is read only through
`config_module.extensions().rust_lib`. `FieldDefinition` keeps its name,
declared type, description and optional resolver; `b_field.resolver(Some(r))`
is the setters-derived update embedded as `set_resolver`. `validate_field`
lives outside the provided sources, so the fold step takes it as an
explicit function argument.
-/

structure ExtensionConfig where
  payload : String
deriving DecidableEq

structure Rust where
  lib : String
  ext : ExtensionConfig
deriving DecidableEq

inductive IOKind where
  | rust (rust : Rust)
deriving DecidableEq

inductive IR where
  | io (call : IOKind)
deriving DecidableEq

structure Extensions where
  rust_lib : Option String
deriving DecidableEq

structure ConfigModule where
  extensions : Extensions
deriving DecidableEq

structure ConfigField where
  ext : Option ExtensionConfig
deriving DecidableEq

structure ConfigType where
  name : String
deriving DecidableEq

structure FieldDefinition where
  name : String
  of_type : String
  description : Option String
  resolver : Option IR
deriving DecidableEq

def FieldDefinition.set_resolver (b : FieldDefinition) (r : Option IR) : FieldDefinition :=
  ⟨b.name, b.of_type, b.description, r⟩

def compile_extension (ext : ExtensionConfig) (config_module : ConfigModule) :
    Valid IR String :=
  Valid.bind
    (Valid.from_option config_module.extensions.rust_lib
      "A @link with path to dylib is required")
    (fun lib => Valid.succeed (IR.io (IOKind.rust ⟨lib, ext⟩)))

def update_extension_step
    (validate_field : FieldDefinition → ConfigType → ConfigModule → Valid Unit String)
    (config_module : ConfigModule) (field : ConfigField) (type_of : ConfigType)
    (b_field : FieldDefinition) : Valid FieldDefinition String :=
  match field.ext with
  | none => Valid.succeed b_field
  | some ext =>
    Valid.bind (compile_extension ext config_module) (fun resolver =>
      let b2 := b_field.set_resolver (some resolver)
      Valid.bind (validate_field b2 type_of config_module)
        (fun _ => Valid.succeed b2))

/-- C4: with an extension operator configured, a missing dylib path makes
the fold step fail with the accumulating validation error
"A @link with path to dylib is required" (an `Except.error`, not a panic);
with the path present (and the field validation succeeding) it attaches
`IR.io (IOKind.rust _)` as the field's resolver. -/
theorem extension_requires_dylib :
    (∀ (validate_field : FieldDefinition → ConfigType → ConfigModule → Valid Unit String)
        (config_module : ConfigModule) (field : ConfigField) (type_of : ConfigType)
        (b_field : FieldDefinition) (ext : ExtensionConfig),
      field.ext = some ext →
      config_module.extensions.rust_lib = none →
      update_extension_step validate_field config_module field type_of b_field
        = Valid.fail "A @link with path to dylib is required")
    ∧ (∀ (validate_field : FieldDefinition → ConfigType → ConfigModule → Valid Unit String)
        (config_module : ConfigModule) (field : ConfigField) (type_of : ConfigType)
        (b_field : FieldDefinition) (ext : ExtensionConfig) (lib : String),
      field.ext = some ext →
      config_module.extensions.rust_lib = some lib →
      validate_field (b_field.set_resolver (some (IR.io (IOKind.rust ⟨lib, ext⟩))))
          type_of config_module = Valid.succeed () →
      update_extension_step validate_field config_module field type_of b_field
        = Valid.succeed (b_field.set_resolver (some (IR.io (IOKind.rust ⟨lib, ext⟩))))) := by
  constructor
  · intro validate_field config_module field type_of b_field ext hext hlib
    simp only [update_extension_step, hext]
    simp [compile_extension, hlib, Valid.bind, Valid.from_option, Valid.fail]
  · intro validate_field config_module field type_of b_field ext lib hext hlib hval
    simp only [update_extension_step, hext]
    simp only [compile_extension, hlib, Valid.bind, Valid.from_option, Valid.succeed]
    simp only [Valid.succeed] at hval
    rw [hval]

/-- C9: a field configuration carrying no extension operator leaves the
accumulated `FieldDefinition` exactly as it was: the fold step returns it
unchanged, resolver and all other components included. -/
theorem extension_step_identity_without_extension :
    ∀ (validate_field : FieldDefinition → ConfigType → ConfigModule → Valid Unit String)
      (config_module : ConfigModule) (type_of : ConfigType)
      (b_field : FieldDefinition),
      update_extension_step validate_field config_module ⟨none⟩ type_of b_field
        = Valid.succeed b_field := by
  intro validate_field config_module type_of b_field
  rfl

def extensionExample : ExtensionConfig := ⟨"grpc-codegen-payload"⟩

def fieldWithExtension : ConfigField := ⟨some extensionExample⟩

def cmNoLib : ConfigModule := ⟨⟨none⟩⟩

def cmWithLib : ConfigModule := ⟨⟨some "libtailcall_extension.so"⟩⟩

def bFieldExample : FieldDefinition := ⟨"posts", "Post", none, none⟩

def validateFieldOk : FieldDefinition → ConfigType → ConfigModule → Valid Unit String :=
  fun _ _ _ => Valid.succeed ()

theorem extension_requires_dylib_witness :
    (fieldWithExtension.ext = some extensionExample
     ∧ cmNoLib.extensions.rust_lib = none
     ∧ update_extension_step validateFieldOk cmNoLib fieldWithExtension ⟨"Query"⟩ bFieldExample
        = Valid.fail "A @link with path to dylib is required")
    ∧ (cmWithLib.extensions.rust_lib = some "libtailcall_extension.so"
     ∧ update_extension_step validateFieldOk cmWithLib fieldWithExtension ⟨"Query"⟩ bFieldExample
        = Valid.succeed (bFieldExample.set_resolver
            (some (IR.io (IOKind.rust ⟨"libtailcall_extension.so", extensionExample⟩))))) :=
  ⟨⟨rfl, rfl,
    extension_requires_dylib.1 validateFieldOk cmNoLib fieldWithExtension ⟨"Query"⟩
      bFieldExample extensionExample rfl rfl⟩,
   ⟨rfl,
    extension_requires_dylib.2 validateFieldOk cmWithLib fieldWithExtension ⟨"Query"⟩
      bFieldExample extensionExample "libtailcall_extension.so" rfl rfl rfl⟩⟩

/-!
JIT executor dispatch (src/core/jit/graphql_executor.rs,
src/core/jit/exec_const.rs).

`JITExecutor::execute` builds a `ConstValueExecutor` from the request;
`ConstValueExecutor::new` is `request.create_plan(&blueprint)` mapped into
the executor (the `?` propagates the plan-build error). On `Err` the
response is `Response::from_errors(vec![error.into_server_error()])`; on
`Ok` the built executor runs the plan. `create_plan` and the IR runner
live outside the provided sources and are taken as function arguments.
-/

structure GqlResponse (V E : Type) where
  body : Option V
  errors : List E
deriving DecidableEq

def GqlResponse.from_errors {V E : Type} (errs : List E) : GqlResponse V E :=
  ⟨none, errs⟩

def constValueExecutorNew {Req Bp Plan Err : Type}
    (create_plan : Req → Bp → Except Err Plan) (request : Req) (blueprint : Bp) :
    Except Err Plan :=
  create_plan request blueprint

def jitExecute {Req Bp Plan Err SErr V : Type}
    (create_plan : Req → Bp → Except Err Plan)
    (into_server_error : Err → SErr)
    (run : Plan → Req → GqlResponse V SErr)
    (blueprint : Bp) (request : Req) : GqlResponse V SErr :=
  match constValueExecutorNew create_plan request blueprint with
  | Except.ok plan => run plan request
  | Except.error e => GqlResponse.from_errors [into_server_error e]

/-- C5: when plan creation fails the executor's response is built only
from that error: it has no data, it is independent of the IR runner (no
IR evaluation can influence it), and it equals
`from_errors [into_server_error e]`; IR execution runs only when plan
creation succeeded, in which case the response is exactly the runner's. -/
theorem jit_plan_error_short_circuits {Req Bp Plan Err SErr V : Type}
    (create_plan : Req → Bp → Except Err Plan)
    (into_server_error : Err → SErr)
    (run run2 : Plan → Req → GqlResponse V SErr)
    (blueprint : Bp) (request : Req) :
    (∀ e, create_plan request blueprint = Except.error e →
      jitExecute create_plan into_server_error run blueprint request
          = GqlResponse.from_errors [into_server_error e]
        ∧ (jitExecute create_plan into_server_error run blueprint request).body = none
        ∧ jitExecute create_plan into_server_error run blueprint request
          = jitExecute create_plan into_server_error run2 blueprint request)
    ∧ (∀ plan, create_plan request blueprint = Except.ok plan →
      jitExecute create_plan into_server_error run blueprint request = run plan request) := by
  constructor
  · intro e he
    refine ⟨?_, ?_, ?_⟩ <;>
      simp [jitExecute, constValueExecutorNew, he, GqlResponse.from_errors]
  · intro plan hp
    simp [jitExecute, constValueExecutorNew, hp]

def requestBad : String := "query bad"

def createPlanAlwaysFails : String → Unit → Except String Nat :=
  fun _ _ => Except.error "BuildError: field posts not found on type Query"

def runnerConst : Nat → String → GqlResponse Nat String :=
  fun plan _ => ⟨some plan, []⟩

theorem jit_plan_error_short_circuits_witness :
    jitExecute createPlanAlwaysFails (fun e => e) runnerConst () requestBad
        = GqlResponse.from_errors ["BuildError: field posts not found on type Query"]
      ∧ (jitExecute createPlanAlwaysFails (fun e => e) runnerConst () requestBad).body = none
      ∧ jitExecute createPlanAlwaysFails (fun e => e) runnerConst () requestBad
        = jitExecute createPlanAlwaysFails (fun e => e) (fun p _ => ⟨some (p + 1), []⟩) () requestBad :=
  (jit_plan_error_short_circuits createPlanAlwaysFails (fun e => e) runnerConst
    (fun p _ => ⟨some (p + 1), []⟩) () requestBad).1
    "BuildError: field posts not found on type Query" rfl

/-!
Config reader context (src/core/config/reader_context.rs).

`path_string` first returns `None` on an empty path, then splits off the
head and matches it against "vars" and "env", looking the key up as
`tail[0]`. Rust slice indexing `tail[0]` panics when `tail` is empty, so
the embedding returns `Except`: `Except.error` marks a panic, and
`Except.ok` carries the `Option<Cow<str>>` the Rust function returns.
`self.vars` is the `BTreeMap<String, String>` embedded as an association
list and `self.runtime.env.get` as a lookup function.
-/

structure ConfigReaderContext where
  vars : List (String × String)
  env : String → Option String
  headers : List (String × String)

def panicIndexMsg : String := "index out of bounds: the len is 0 but the index is 0"

def path_string (ctx : ConfigReaderContext) (path : List String) :
    Except String (Option String) :=
  if path.isEmpty then Except.ok none
  else
    match path with
    | [] => Except.ok none
    | head :: tail =>
      if head = "vars" then
        match tail with
        | [] => Except.error panicIndexMsg
        | k :: _ => Except.ok (ctx.vars.lookup k)
      else if head = "env" then
        match tail with
        | [] => Except.error panicIndexMsg
        | k :: _ => Except.ok (ctx.env k)
      else Except.ok none

/-- The context of the unit test: vars has VAR_1, env has ENV_1. -/
def ctxReaderExample : ConfigReaderContext :=
  ⟨[("VAR_1", "VAR_VAL")],
   fun k => if k = "ENV_1" then some "ENV_VAL" else none,
   []⟩

/-- C6 counterexample: `path_string` is not panic-free on every input
path: the one-segment path ["vars"] reaches the `tail[0]` slice index on
an empty slice, a Rust panic (and ["env"] likewise), refuting "never
panics for any input path". -/
theorem path_string_panics_on_bare_vars :
    path_string ctxReaderExample ["vars"] = Except.error panicIndexMsg
    ∧ path_string ctxReaderExample ["env"] = Except.error panicIndexMsg := by
  exact ⟨rfl, rfl⟩

/-- C6 amended: `path_string` resolves absence silently — `None` for an
empty path, `None` for an unrecognized source keyword, the stored string
(or `None` when the key is absent) under `vars`/`env` — and does not
panic, provided the path carries a key segment after the `vars`/`env`
head; with a bare ["vars"] or ["env"] head it panics on the `tail[0]`
index. The unit-test cases evaluate as recorded. -/
theorem path_string_amended :
    (∀ ctx, path_string ctx [] = Except.ok none)
    ∧ (∀ (ctx : ConfigReaderContext) (head : String) (tail : List String),
        head ≠ "vars" → head ≠ "env" →
        path_string ctx (head :: tail) = Except.ok none)
    ∧ (∀ (ctx : ConfigReaderContext) (k : String) (rest : List String),
        path_string ctx ("vars" :: k :: rest) = Except.ok (ctx.vars.lookup k))
    ∧ (∀ (ctx : ConfigReaderContext) (k : String) (rest : List String),
        path_string ctx ("env" :: k :: rest) = Except.ok (ctx.env k))
    ∧ (∀ ctx, path_string ctx ["vars"] = Except.error panicIndexMsg
            ∧ path_string ctx ["env"] = Except.error panicIndexMsg)
    ∧ path_string ctxReaderExample ["env", "ENV_1"] = Except.ok (some "ENV_VAL")
    ∧ path_string ctxReaderExample ["env", "ENV_5"] = Except.ok none
    ∧ path_string ctxReaderExample ["vars", "VAR_1"] = Except.ok (some "VAR_VAL")
    ∧ path_string ctxReaderExample ["vars", "VAR_6"] = Except.ok none
    ∧ path_string ctxReaderExample ["unknown", "unknown"] = Except.ok none := by
  refine ⟨fun ctx => rfl, ?_, fun ctx k rest => rfl, fun ctx k rest => rfl,
    fun ctx => ⟨rfl, rfl⟩, rfl, rfl, rfl, rfl, rfl⟩
  intro ctx head tail h1 h2
  simp [path_string, h1, h2]

theorem path_string_amended_witness :
    path_string ctxReaderExample ["headers", "Authorization"] = Except.ok none :=
  path_string_amended.2.1 ctxReaderExample "headers" ["Authorization"]
    (by decide) (by decide)

/-!
OpenAPI query generator (src/core/generator/openapi/query_generator.rs).

`TypeName` is the recursive schema-type name; `into_tuple` unwraps
`inner.name()` for the `ListOf` case, and `Option.unwrap` on `None` is a
Rust panic, embedded as `into_tuple` returning `none`. The oas3 `Schema`
is embedded with the fields the generator reads (`schema_type`, `items`,
`enum_values` and the four emptiness-tested collections, kept as the
lists of their keys); `ObjectOrReference::resolve` looks a `ref` up in
the spec's components and returns an inline `obj` unchanged. `to_case
(Case::Pascal)` from the convert_case crate is taken as a function
argument; `get_schema_type` recurses through resolved item schemas, so
the embedded version carries fuel (`none` = out of fuel), which any
finite inline schema tree exhausts only if shallower than its depth.
-/

namespace openapi

inductive TypeName where
  | ListOf (inner : TypeName)
  | Name (s : String)
deriving DecidableEq

def TypeName.name : TypeName → Option String
  | .ListOf _ => none
  | .Name n => some n

def TypeName.into_tuple : TypeName → Option (Bool × String)
  | .ListOf inner => inner.name.map (fun n => (true, n))
  | .Name n => some (false, n)

inductive SchemaType where
  | boolean
  | integer
  | number
  | string
  | array
  | object
deriving DecidableEq

def schema_type_to_string : SchemaType → String
  | SchemaType.boolean => "Boolean"
  | SchemaType.string => "String"
  | SchemaType.array => "Array"
  | SchemaType.object => "Object"
  | SchemaType.integer => "Int"
  | SchemaType.number => "Int"

def schema_to_primitive_type : SchemaType → Option String
  | SchemaType.array => none
  | SchemaType.object => none
  | x => some (schema_type_to_string x)

inductive ObjectOrReference (α : Type) where
  | ref (ref_path : String)
  | obj (o : α)

inductive Schema where
  | mk (schema_type : Option SchemaType)
       (items : Option (ObjectOrReference Schema))
       (enum_values : List String)
       (properties : List String)
       (all_of : List String)
       (any_of : List String)
       (one_of : List String)

def Schema.schema_type : Schema → Option SchemaType
  | .mk t _ _ _ _ _ _ => t

def Schema.items : Schema → Option (ObjectOrReference Schema)
  | .mk _ i _ _ _ _ _ => i

def Schema.enum_values : Schema → List String
  | .mk _ _ e _ _ _ _ => e

def Schema.properties : Schema → List String
  | .mk _ _ _ p _ _ _ => p

def Schema.all_of : Schema → List String
  | .mk _ _ _ _ a _ _ => a

def Schema.any_of : Schema → List String
  | .mk _ _ _ _ _ a _ => a

def Schema.one_of : Schema → List String
  | .mk _ _ _ _ _ _ o => o

def name_from_ref_path {α : Type} (pascal : String → String) :
    ObjectOrReference α → Option String
  | .ref ref_path => ((ref_path.splitOn "/").getLast?).map pascal
  | .obj _ => none

def resolveRef (spec : String → Option Schema) :
    ObjectOrReference Schema → Except String Schema
  | .obj s => Except.ok s
  | .ref p =>
    match spec p with
    | some s => Except.ok s
    | none => Except.error ("unresolved reference: " ++ p)

def can_define_type (schema : Schema) : Bool :=
  !schema.properties.isEmpty || !schema.all_of.isEmpty || !schema.any_of.isEmpty
    || !schema.one_of.isEmpty || !schema.enum_values.isEmpty

def unknown_type : String := "Unknown"

def get_schema_type (pascal : String → String) (spec : String → Option Schema) :
    Nat → Schema → Option String → Option (Except String TypeName)
  | 0, _, _ => none
  | Nat.succ fuel, schema, name =>
    match schema.items with
    | some element =>
      match resolveRef spec element with
      | Except.error e => some (Except.error e)
      | Except.ok inner_schema =>
        if inner_schema.schema_type = some SchemaType.string
            ∧ ¬ inner_schema.enum_values.isEmpty then
          some (Except.ok (TypeName.ListOf (TypeName.Name unknown_type)))
        else
          match (name_from_ref_path pascal element).orElse
              (fun _ => inner_schema.schema_type.bind schema_to_primitive_type) with
          | some n => some (Except.ok (TypeName.ListOf (TypeName.Name n)))
          | none =>
            match get_schema_type pascal spec fuel inner_schema none with
            | none => none
            | some (Except.error e) => some (Except.error e)
            | some (Except.ok t) => some (Except.ok (TypeName.ListOf t))
    | none =>
      if schema.schema_type = some SchemaType.string
          ∧ ¬ schema.enum_values.isEmpty then
        some (Except.ok (TypeName.Name unknown_type))
      else
        match schema.schema_type with
        | some SchemaType.integer =>
          some (Except.ok (TypeName.Name (schema_type_to_string SchemaType.integer)))
        | some SchemaType.string =>
          some (Except.ok (TypeName.Name (schema_type_to_string SchemaType.string)))
        | some SchemaType.number =>
          some (Except.ok (TypeName.Name (schema_type_to_string SchemaType.number)))
        | some SchemaType.boolean =>
          some (Except.ok (TypeName.Name (schema_type_to_string SchemaType.boolean)))
        | _ =>
          match name with
          | some n => some (Except.ok (TypeName.Name n))
          | none =>
            if can_define_type schema then some (Except.ok (TypeName.Name unknown_type))
            else some (Except.ok (TypeName.Name "JSON"))

def schemaInt : Schema := Schema.mk (some SchemaType.integer) none [] [] [] [] []

def schemaArrayOfInt : Schema :=
  Schema.mk (some SchemaType.array) (some (ObjectOrReference.obj schemaInt)) [] [] [] [] []

def schemaArrayOfArrayOfInt : Schema :=
  Schema.mk (some SchemaType.array) (some (ObjectOrReference.obj schemaArrayOfInt)) [] [] [] [] []

/-- C7 counterexample: `get_schema_type` on an inline array-of-array
schema produces the nested value `ListOf (ListOf (Name "Int"))`, and on
that value `into_tuple` hits `inner.name().unwrap()` with `inner.name()`
being `None` — a panic (embedded as `none`) — refuting the claimed
totality of the terminal reduction on generator-constructible values. -/
theorem into_tuple_panics_on_nested_list :
    get_schema_type (fun s => s) (fun _ => none) 2 schemaArrayOfArrayOfInt none
      = some (Except.ok (TypeName.ListOf (TypeName.ListOf (TypeName.Name "Int"))))
    ∧ TypeName.into_tuple (TypeName.ListOf (TypeName.ListOf (TypeName.Name "Int"))) = none :=
  ⟨rfl, rfl⟩

/-- C7 amended: `into_tuple` maps `Name n` to `(false, n)` and a single
`ListOf (Name n)` to `(true, n)` without panicking, but it panics
(`Option.unwrap` on `None`) on every doubly nested `ListOf (ListOf _)`,
values the generator can produce for array-of-array schemas; the terminal
reduction is total only on flat or singly-listed type names. -/
theorem into_tuple_amended :
    (∀ n : String, TypeName.into_tuple (TypeName.Name n) = some (false, n))
    ∧ (∀ n : String, TypeName.into_tuple (TypeName.ListOf (TypeName.Name n)) = some (true, n))
    ∧ (∀ t : TypeName, TypeName.into_tuple (TypeName.ListOf (TypeName.ListOf t)) = none)
    ∧ get_schema_type (fun s => s) (fun _ => none) 1 schemaArrayOfInt none
        = some (Except.ok (TypeName.ListOf (TypeName.Name "Int")))
    ∧ TypeName.into_tuple (TypeName.ListOf (TypeName.Name "Int")) = some (true, "Int") :=
  ⟨fun _ => rfl, fun _ => rfl, fun _ => rfl, rfl, rfl⟩

end openapi

/-!
Build hasher (src/tailcall-hasher/src/lib.rs).

`TailcallHasher` wraps `fnv::FnvHasher`, delegating `write` and `finish`;
`TailcallBuildHasher::build_hasher` returns `TailcallHasher::default()`,
whose inner state is the fixed FNV-1a 64-bit offset basis — no per-map
random seed. Per the fnv crate, the state starts at 0xcbf29ce484222325
and each written byte b updates it to ((state xor b) * 0x100000001b3)
mod 2^64; `finish` returns the state.
-/

def fnvOffsetBasis : Nat := 0xcbf29ce484222325

def fnvPrime : Nat := 0x100000001b3

def fnvWriteByte (state b : Nat) : Nat :=
  ((state ^^^ (b % 256)) * fnvPrime) % (2 ^ 64)

structure TailcallHasher where
  hasher : Nat
deriving DecidableEq

def TailcallHasher.default : TailcallHasher := ⟨fnvOffsetBasis⟩

def TailcallHasher.write (h : TailcallHasher) (bytes : List Nat) : TailcallHasher :=
  ⟨bytes.foldl fnvWriteByte h.hasher⟩

def TailcallHasher.finish (h : TailcallHasher) : Nat := h.hasher

structure TailcallBuildHasher where
deriving DecidableEq

def TailcallBuildHasher.build_hasher (_ : TailcallBuildHasher) : TailcallHasher :=
  TailcallHasher.default

/-- A hasher fed with a sequence of write calls, one byte list each. -/
def feedWrites (h : TailcallHasher) (ws : List (List Nat)) : TailcallHasher :=
  ws.foldl TailcallHasher.write h

/-- C10: hashing is deterministic across independently built hashers:
`build_hasher` always yields the fixed default FNV state, so two hashers
fed the same sequence of write calls finish with the same u64 — equal
keys hash equally across maps and executions; sanity conjuncts pin the
model to FNV-1a (empty input gives the offset basis, bytes "hi" give
0x8ba5f07b55ec3da). -/
theorem tailcall_hasher_deterministic :
    (∀ b : TailcallBuildHasher, b.build_hasher = TailcallHasher.default)
    ∧ (∀ (b1 b2 : TailcallBuildHasher) (ws : List (List Nat)),
        (feedWrites b1.build_hasher ws).finish = (feedWrites b2.build_hasher ws).finish)
    ∧ (TailcallBuildHasher.mk.build_hasher.finish = fnvOffsetBasis)
    ∧ (feedWrites TailcallBuildHasher.mk.build_hasher [[104, 105]]).finish
        = 0x8ba5f07b55ec3da := by
  refine ⟨fun _ => rfl, fun _ _ _ => rfl, rfl, by decide⟩
